import Mathlib

/-!
# Verification of the advancedAutoclicker detection-and-rule-evaluation engine

Shallow embedding of the core evaluation logic of the repository:

* `src/monitor.py` — `ScreenMonitor._apply_rule_logic`, `ScreenMonitor.evaluate_rule`,
  `ScreenMonitor.start_monitoring` / `stop_monitoring`, and the `_monitor_loop`
  state machine (modelled as a labelled transition system).
* `src/config.py` — the `Condition` / `ConditionGroup` / `Rule` data model and
  `Rule.__post_init__`'s legacy-conditions conversion.
* `src/detection.py` — `DetectionEngine._color_similar`, the point-mode branch of
  `detect_color`, `evaluate_condition`'s exception handling, and `_text_similar`.

Python machine-level conventions used throughout the embedding:

* Python `int` is unbounded, so integer fields are `Int` (counts are `Nat`).
* Python `float` comparisons against exact rational constants (`0.7`, `tolerance * 1.5`)
  are modelled exactly over `ℚ` / `ℝ`; `math.sqrt(s) <= 1.5 * t` for the integer
  magnitudes occurring here (`s ≤ 3·255²`) is decided exactly by the correctly rounded
  double sqrt, and is modelled by the equivalent integer inequality `4·s ≤ 9·t²`
  guarded by `0 ≤ t`.
* Python strings are Lean `String`s; `str.lower()` is modelled for the ASCII range
  (`charLower`), `str.split()` splits on runs of ASCII whitespace (`splitWs`),
  `a in b` on strings is infix containment on the character lists.
* Fallible Python code (functions that may `raise`) returns `Except String α`.
-/

namespace AutoClicker

/-! ## Python string primitives -/

/-- ASCII model of Python `str.lower` on a single character:
uppercase `A`–`Z` (codepoints 65–90) map to codepoint + 32, all else unchanged. -/
def charLower (c : Char) : Char :=
  if 65 ≤ c.toNat ∧ c.toNat ≤ 90 then Char.ofNat (c.toNat + 32) else c

/-- Model of Python `str.lower()` (ASCII range). -/
def strLower (s : String) : String :=
  ⟨s.data.map charLower⟩

/-- ASCII whitespace as recognized by Python `str.split()` with no arguments. -/
def isPyWs (c : Char) : Bool :=
  c = ' ' || c = '\t' || c = '\n' || c = '\r' || c = '\x0b' || c = '\x0c'

/-- Helper for `splitWs`: accumulates the current word (reversed). -/
def splitWsAux : List Char → List Char → List (List Char)
  | [], acc => if acc = [] then [] else [acc.reverse]
  | c :: rest, acc =>
    if isPyWs c then
      if acc = [] then splitWsAux rest []
      else acc.reverse :: splitWsAux rest []
    else splitWsAux rest (c :: acc)

/-- Model of Python `str.split()` (no separator): split on runs of whitespace,
dropping empty pieces. -/
def splitWs (l : List Char) : List (List Char) :=
  splitWsAux l []

/-! ## `ScreenMonitor._apply_rule_logic` (src/monitor.py lines 221–259) -/

/-- Embedding of `ScreenMonitor._apply_rule_logic(logic, condition_results, n)`.
An empty result list returns `False` before any policy dispatch; `'any'` / `'all'`
use Python `any` / `all`; `'n-of'` requires `n` present and positive and at least
`n` true results; any other policy string falls back to `any`. The policy string
is compared after `.lower()`. -/
def applyRuleLogic (logic : String) (condition_results : List Bool)
    (n : Option Int) : Bool :=
  if condition_results = [] then
    false
  else if strLower logic = "any" then
    condition_results.any id
  else if strLower logic = "all" then
    condition_results.all id
  else if strLower logic = "n-of" then
    match n with
    | none => false
    | some k =>
      if k ≤ 0 then false
      else decide ((condition_results.countP id : Int) ≥ k)
  else
    condition_results.any id

/-! ## Data model (src/config.py) -/

/-- A Python condition value: either an RGB triple (for `type='color'`) or a
string (for `type='text'`). Other Python values a mis-built config could hold
are not distinguished beyond "not an RGB 3-tuple", which is what
`detect_color`'s shape check tests. -/
inductive PyValue where
  | rgb (r g b : Int)
  | str (s : String)
deriving DecidableEq

/-- Embedding of `config.Condition`: one atomic detection condition. `position` is the
coordinate tuple, of length 2 (point) or 4 (area). -/
structure Condition where
  type : String
  position : List Int
  value : PyValue
  comparator : String := "equals"
  tolerance : Int := 10
deriving DecidableEq

/-- Embedding of `config.ConditionGroup`: a group of conditions with its own logic policy. -/
structure ConditionGroup where
  conditions : List Condition
  logic : String := "all"
  n : Option Int := none
  name : String := "Group"
deriving DecidableEq

/-- Embedding of `config.Rule`: condition groups plus a click position, with legacy support
for a flat `conditions` list. `group_logic` is `Option String` because the
monitor defensively treats a `None` value as `'any'`. -/
structure Rule where
  click_position : Int × Int
  condition_groups : List ConditionGroup
  group_logic : Option String := some "any"
  conditions : Option (List Condition) := none
  logic : Option String := none
  n : Option Int := none
deriving DecidableEq

/-- Embedding of `Rule.__post_init__`: when a legacy `conditions` list is present (not `None`)
and `condition_groups` is empty, synthesize a single "Legacy Group" carrying the
flat conditions with the legacy `logic` (Python `self.logic or 'any'`) and `n`.
The legacy `conditions` field itself is left in place. -/
def rulePostInit (r : Rule) : Rule :=
  match r.conditions with
  | none => r
  | some cs =>
    if r.condition_groups = [] then
      { r with
        condition_groups :=
          [{ conditions := cs
             logic := match r.logic with
                      | none => "any"
                      | some s => if s = "" then "any" else s
             n := r.n
             name := "Legacy Group" }] }
    else r

/-! ## `ScreenMonitor.evaluate_rule` (src/monitor.py lines 92–168)

Condition evaluation is abstracted by an oracle `evalC : Condition → Bool`:
per `evaluate_condition` (C7), the detection engine returns a boolean and never
raises, so the inner `try/except` of `evaluate_rule` never appends `False` on
an exception path that the oracle cannot already represent. -/

/-- Embedding of `ScreenMonitor.evaluate_rule`. Each condition group contributes
one combined boolean; each legacy standalone condition (a non-empty
`rule.conditions` list) contributes its own boolean; the rule-level logic
(`rule.group_logic`, `None` ⇒ `'any'`) with `rule.n` is applied across the
concatenation, and an empty concatenation returns `False`. -/
def evaluateRule (evalC : Condition → Bool) (r : Rule) : Bool :=
  let group_results :=
    r.condition_groups.map
      (fun g => applyRuleLogic g.logic (g.conditions.map evalC) g.n)
  let standalone_results :=
    match r.conditions with
    | none => []
    | some cs => cs.map evalC
  let all_results := group_results ++ standalone_results
  let main_logic :=
    match r.group_logic with
    | none => "any"
    | some s => s
  if all_results = [] then false
  else applyRuleLogic main_logic all_results r.n

/-! ## `DetectionEngine._color_similar` (src/detection.py lines 543–568) -/

/-- Embedding of `DetectionEngine._color_similar(color1, color2, tolerance)`:
true iff all per-channel absolute differences are ≤ `tolerance`, or the
Euclidean RGB distance is ≤ `tolerance * 1.5`. The real-valued comparison
`math.sqrt(r²+g²+b²) <= tolerance * 1.5` is modelled exactly: for
`0 ≤ tolerance` it is `4·(r²+g²+b²) ≤ 9·tolerance²`, and for a negative
tolerance the right-hand side is negative and the comparison is false. -/
def colorSimilar (color1 color2 : Int × Int × Int) (tolerance : Int) : Bool :=
  let r_diff := |color1.1 - color2.1|
  let g_diff := |color1.2.1 - color2.2.1|
  let b_diff := |color1.2.2 - color2.2.2|
  let channel_match :=
    decide (r_diff ≤ tolerance) && decide (g_diff ≤ tolerance) &&
      decide (b_diff ≤ tolerance)
  let euclidean_match :=
    decide (0 ≤ tolerance) &&
      decide (4 * (r_diff ^ 2 + g_diff ^ 2 + b_diff ^ 2) ≤ 9 * tolerance ^ 2)
  channel_match || euclidean_match

/-- Point-mode comparator dispatch of `DetectionEngine.detect_color`
(src/detection.py lines 122–142), given the detected center pixel:
`'equals'` compares via `_color_similar` with the fixed small tolerance 3;
`'similar'` and any other comparator (the code's final `else` handles
`'contains'`) compare via `_color_similar` with the condition's tolerance. -/
def detectColorPoint (detected target : Int × Int × Int) (comparator : String)
    (tolerance : Int) : Bool :=
  if comparator = "equals" then colorSimilar detected target 3
  else colorSimilar detected target tolerance

/-- Embedding of `DetectionEngine._color_exists_in_region` (src/detection.py lines 144–176):
`'equals'` looks for an exact pixel match anywhere; any other comparator looks
for a pixel with Euclidean distance ≤ `tolerance` (again modelled exactly by
squaring under a `0 ≤ tolerance` guard). -/
def colorExistsInRegion (img : List (List (Int × Int × Int)))
    (target : Int × Int × Int) (tolerance : Int) (comparator : String) : Bool :=
  if comparator = "equals" then
    img.any (fun row => row.any (fun p => decide (p = target)))
  else
    img.any (fun row => row.any (fun p =>
      decide (0 ≤ tolerance) &&
        decide ((p.1 - target.1) ^ 2 + (p.2.1 - target.2.1) ^ 2 +
          (p.2.2 - target.2.2) ^ 2 ≤ tolerance ^ 2)))

/-- Embedding of `DetectionEngine.detect_color` (src/detection.py lines 77–142). Screen
capture is abstracted by the captured region `img` (row-major RGB pixels).
Validation failures (`raise ValueError`) and an out-of-range center-pixel read
are returned as `Except.error`. Point mode reads the center pixel
`img[h//2][w//2]` (the BGR/RGB round trip of the source is identity in an RGB
model). -/
def detectColor (img : List (List (Int × Int × Int))) (c : Condition) :
    Except String Bool :=
  if c.type ≠ "color" then
    .error "Condition type must be color for color detection"
  else
    match c.value with
    | PyValue.str _ => .error "Color value must be RGB tuple (r, g, b)"
    | PyValue.rgb r g b =>
      if c.position.length = 4 then
        .ok (colorExistsInRegion img (r, g, b) c.tolerance c.comparator)
      else
        let h := img.length
        let w := (img.headD []).length
        match (img.get? (h / 2)).bind (fun row => row.get? (w / 2)) with
        | none => .error "IndexError: center pixel read out of range"
        | some detected =>
          .ok (detectColorPoint detected (r, g, b) c.comparator c.tolerance)

/-! ## `DetectionEngine.evaluate_condition` (src/detection.py lines 522–541) -/

/-- The dispatch inside `evaluate_condition`'s `try` block: color and text
detection are abstracted as fallible detectors; an unknown condition type
raises `ValueError`. -/
def dispatchCondition (detectC detectT : Condition → Except String Bool)
    (c : Condition) : Except String Bool :=
  if c.type = "color" then detectC c
  else if c.type = "text" then detectT c
  else .error ("Unknown condition type: " ++ c.type)

/-- Embedding of `DetectionEngine.evaluate_condition`: the whole dispatch is wrapped in
`try/except Exception`, downgrading every raised error to `False`. -/
def evaluateCondition (detectC detectT : Condition → Except String Bool)
    (c : Condition) : Bool :=
  match dispatchCondition detectC detectT c with
  | .ok b => b
  | .error _ => false

/-! ## `DetectionEngine._text_similar` (src/detection.py lines 570–617) -/

/-- Python `' '.join(words)`: concatenate words with single spaces between
consecutive words. -/
def joinWords : List (List Char) → List Char
  | [] => []
  | [w] => w
  | w :: ws => w ++ ' ' :: joinWords ws

/-- Python `' '.join(text.lower().split())` as a character list: lowercase,
split on whitespace runs, re-join single-spaced. -/
def normClean (s : String) : List Char :=
  joinWords (splitWs (s.data.map charLower))

/-- Python `set(clean.split())` as a deduplicated word list. -/
def wordList (clean : List Char) : List (List Char) :=
  (splitWs clean).dedup

/-- Word-level Jaccard similarity `len(words1 & words2) / len(words1 | words2)`
(with Python's `if union else 0.0` guard), on deduplicated word lists. -/
def wordSimilarity (w1 w2 : List (List Char)) : ℚ :=
  let inter := (w1.filter (fun w => decide (w ∈ w2))).length
  let union := (w1 ++ w2).dedup.length
  if union = 0 then 0 else (inter : ℚ) / (union : ℚ)

/-- Character-overlap ratio: the number of characters of `clean1` occurring
anywhere in `clean2`, divided by the longer length (with the `if max_length
else 0.0` guard). -/
def charSimilarity (clean1 clean2 : List Char) : ℚ :=
  let common := (clean1.filter (fun ch => decide (ch ∈ clean2))).length
  let maxLen := max clean1.length clean2.length
  if maxLen = 0 then 0 else (common : ℚ) / (maxLen : ℚ)

/-- Embedding of `DetectionEngine._text_similar(text1, text2, threshold=0.7)`, with the
`ADV_OCR_SIM_THRESHOLD` environment override absent. Empty raw or normalized
inputs return `False`; equal or mutually containing normalized texts (Python
substring `in`, i.e. `<:+:`) return `True`; otherwise the verdict is
`max(word_similarity, char_similarity) >= threshold`. Floats are modelled by
exact rationals. -/
def textSimilar (text1 text2 : String) (threshold : ℚ := 7/10) : Bool :=
  if text1 = "" ∨ text2 = "" then false
  else
    let clean1 := normClean text1
    let clean2 := normClean text2
    if clean1 = [] ∨ clean2 = [] then false
    else if clean1 = clean2 then true
    else if clean1 <:+: clean2 ∨ clean2 <:+: clean1 then true
    else
      let words1 := wordList clean1
      let words2 := wordList clean2
      if words1 = [] ∨ words2 = [] then false
      else
        decide (threshold ≤ max (wordSimilarity words1 words2)
          (charSimilarity clean1 clean2))

/-! ## `ScreenMonitor.start_monitoring` / `stop_monitoring`
(src/monitor.py lines 41–81) -/

/-- Controller-visible state of a `ScreenMonitor`: the `is_monitoring` flag,
the configured rule list, and a count of worker threads spawned so far (each
`threading.Thread(...).start()` increments it). -/
structure MonitorCtl where
  is_monitoring : Bool
  rules : List Rule
  worker_spawns : Nat

/-- Embedding of `ScreenMonitor.start_monitoring`: returns `False` unchanged when already
monitoring or when the rule list is empty; otherwise sets the flag, spawns the
worker, and returns `True`. -/
def startMonitoring (m : MonitorCtl) : Bool × MonitorCtl :=
  if m.is_monitoring then (false, m)
  else if m.rules = [] then (false, m)
  else (true, { m with is_monitoring := true
                       worker_spawns := m.worker_spawns + 1 })

/-- Embedding of `ScreenMonitor.stop_monitoring`: returns `False` unchanged when not
monitoring; otherwise clears the flag (and joins the worker) and returns
`True`. -/
def stopMonitoring (m : MonitorCtl) : Bool × MonitorCtl :=
  if !m.is_monitoring then (false, m)
  else (true, { m with is_monitoring := false })

/-! ## `ScreenMonitor._monitor_loop` (src/monitor.py lines 170–219)
as a labelled transition system -/

/-- Program counter of the monitor-loop worker. -/
inductive LoopPC where
  /-- The `while self.is_monitoring` test. -/
  | whileCheck
  /-- The `if self.is_processing_match` test at the top of the body. -/
  | pauseCheck
  /-- for-loop position before rule `i`: the `if not self.is_monitoring or
  self.is_processing_match: break` guard. -/
  | ruleAt (i : Nat)
  /-- about to call `evaluate_rule` on rule `i`. -/
  | evalAt (i : Nat)
  /-- State after `evaluate_rule` returned `True`; about to set `is_processing_match`. -/
  | matched (i : Nat)
  /-- pending flag written; about to invoke `on_rule_matched`. -/
  | callbackAt
  /-- after the for loop: optional sleep before the next while iteration. -/
  | tickSleep
  /-- loop terminated. -/
  | exited
deriving DecidableEq

/-- Worker-loop state: program counter plus the two shared flags. -/
structure LoopState where
  pc : LoopPC
  monitoring : Bool
  processing : Bool
deriving DecidableEq

/-- Transition labels: `evalRule` marks the `evaluate_rule` call (the only step
that evaluates conditions); `resume` / `stopSignal` are the cross-thread
`resume_monitoring()` / `stop_monitoring()` writes; `tau` is any other internal
worker step. -/
inductive LoopLabel where
  | evalRule
  | resume
  | stopSignal
  | tau
deriving DecidableEq

/-- Small-step relation of `_monitor_loop` over `numRules` configured rules,
interleaved with controller signals. Rule verdicts are nondeterministic
(`evalFalse` / `evalTrue`), as is the callback outcome (`callbackRet` for a
normal return — including no callback being set — and `callbackRaise` for the
`except` branch that resets the pending flag). -/
inductive LoopStep (numRules : Nat) : LoopState → LoopLabel → LoopState → Prop where
  | whileExit (p) :
      LoopStep numRules ⟨.whileCheck, false, p⟩ .tau ⟨.exited, false, p⟩
  | whileEnter (p) :
      LoopStep numRules ⟨.whileCheck, true, p⟩ .tau ⟨.pauseCheck, true, p⟩
  | pauseSleep (m) :
      LoopStep numRules ⟨.pauseCheck, m, true⟩ .tau ⟨.whileCheck, m, true⟩
  | pauseRun (m) :
      LoopStep numRules ⟨.pauseCheck, m, false⟩ .tau ⟨.ruleAt 0, m, false⟩
  | rulesDone (i m p) : numRules ≤ i →
      LoopStep numRules ⟨.ruleAt i, m, p⟩ .tau ⟨.tickSleep, m, p⟩
  | ruleBreak (i m p) : i < numRules → m = false ∨ p = true →
      LoopStep numRules ⟨.ruleAt i, m, p⟩ .tau ⟨.tickSleep, m, p⟩
  | ruleEval (i) : i < numRules →
      LoopStep numRules ⟨.ruleAt i, true, false⟩ .tau ⟨.evalAt i, true, false⟩
  | evalFalse (i m p) :
      LoopStep numRules ⟨.evalAt i, m, p⟩ .evalRule ⟨.ruleAt (i + 1), m, p⟩
  | evalTrue (i m p) :
      LoopStep numRules ⟨.evalAt i, m, p⟩ .evalRule ⟨.matched i, m, p⟩
  | matchedSetFlag (i m p) :
      LoopStep numRules ⟨.matched i, m, p⟩ .tau ⟨.callbackAt, m, true⟩
  | callbackRet (m p) :
      LoopStep numRules ⟨.callbackAt, m, p⟩ .tau ⟨.tickSleep, m, p⟩
  | callbackRaise (m p) :
      LoopStep numRules ⟨.callbackAt, m, p⟩ .tau ⟨.tickSleep, m, false⟩
  | tick (m p) :
      LoopStep numRules ⟨.tickSleep, m, p⟩ .tau ⟨.whileCheck, m, p⟩
  | ctlResume (pc m p) :
      LoopStep numRules ⟨pc, m, p⟩ .resume ⟨pc, m, false⟩
  | ctlStop (pc m p) :
      LoopStep numRules ⟨pc, m, p⟩ .stopSignal ⟨pc, false, p⟩

/-- Reachability from the state in which `start_monitoring` has just spawned
the worker: loop entry with `is_monitoring = True` and no pending match. -/
inductive LoopReachable (numRules : Nat) : LoopState → Prop where
  | init : LoopReachable numRules ⟨.whileCheck, true, false⟩
  | step {s l s'} : LoopReachable numRules s → LoopStep numRules s l s' →
      LoopReachable numRules s'

/-! ## Concrete fixtures used by counterexamples and witnesses -/

/-- A color condition (satisfied in the `evalAB` scenario). -/
def condA : Condition :=
  { type := "color", position := [0, 0], value := .rgb 255 0 0 }

/-- A color condition (not satisfied in the `evalAB` scenario). -/
def condB : Condition :=
  { type := "color", position := [1, 1], value := .rgb 0 255 0 }

/-- Concrete detection outcome: `condA` holds on screen, everything else does
not. -/
def evalAB (c : Condition) : Bool :=
  decide (c = condA)

/-- A legacy-format rule: flat `conditions` list with `'all'` logic and no
condition groups. -/
def legacyRuleAllAB : Rule :=
  { click_position := (0, 0), condition_groups := []
    conditions := some [condA, condB], logic := some "all" }

/-- The explicitly grouped rule the spec claims `legacyRuleAllAB` is
equivalent to: exactly one group holding the same conditions under the same
`'all'` logic. -/
def groupedRuleAllAB : Rule :=
  { click_position := (0, 0)
    condition_groups :=
      [{ conditions := [condA, condB], logic := "all", name := "Legacy Group" }] }

/-- A rule with no condition groups and no legacy conditions. -/
def emptyRule : Rule :=
  { click_position := (0, 0), condition_groups := [] }

/-- A color condition whose value has the wrong shape (a string). -/
def condBadShape : Condition :=
  { type := "color", position := [0, 0], value := .str "oops" }

/-- A condition of unknown type. -/
def condUnknownType : Condition :=
  { type := "mystery", position := [0, 0], value := .str "x" }

/-- A detector that always raises. -/
def alwaysErr : Condition → Except String Bool :=
  fun _ => .error "CaptureError"

/-! ## Basic facts about `charLower` / `strLower` -/

theorem charLower_idem (c : Char) : charLower (charLower c) = charLower c := by
  unfold charLower
  by_cases h : 65 ≤ c.toNat ∧ c.toNat ≤ 90
  · simp only [h, if_true]
    obtain ⟨n, hn⟩ : ∃ n, c.toNat = n := ⟨_, rfl⟩
    rw [hn] at h
    obtain ⟨h1, h2⟩ := h
    interval_cases n <;> simp_all
  · simp only [h, if_false]

theorem strLower_idem (s : String) : strLower (strLower s) = strLower s := by
  unfold strLower
  simp [List.map_map, Function.comp_def, charLower_idem]

/-- C1: `_apply_rule_logic` matches the reference semantics: `'all'` is true iff
every element is true (empty list ⇒ false), `'n-of'` is true iff `n` is present,
positive, and at most the number of true results (so false when `n` is null or
`≤ 0`), and `'any'` as well as every unrecognized policy string is true iff at
least one element is true (empty list ⇒ false). -/
theorem apply_rule_logic_reference_semantics :
    ∀ (logic : String) (results : List Bool) (n : Option Int),
      applyRuleLogic logic results n = true ↔
        (if strLower logic = "all" then
          results ≠ [] ∧ ∀ b ∈ results, b = true
        else if strLower logic = "n-of" then
          ∃ k : Int, n = some k ∧ 0 < k ∧ k ≤ (results.countP id : Int)
        else
          ∃ b ∈ results, b = true) := by
  intro logic results n
  by_cases hemp : results = []
  · subst hemp
    have hnil : applyRuleLogic logic [] n = false := by
      simp [applyRuleLogic]
    rw [hnil]
    simp only [Bool.false_eq_true, false_iff]
    by_cases hall : strLower logic = "all"
    · simp [hall]
    · by_cases hnof : strLower logic = "n-of"
      · simp only [if_neg hall, if_pos hnof, List.countP_nil, Nat.cast_zero]
        rintro ⟨k, _, h1, h2⟩
        omega
      · simp [hall, hnof]
  · unfold applyRuleLogic
    simp only [if_neg hemp]
    by_cases hany : strLower logic = "any"
    · have hall : ¬ strLower logic = "all" := by rw [hany]; decide
      have hnof : ¬ strLower logic = "n-of" := by rw [hany]; decide
      simp [hany, hall, hnof]
    · simp only [if_neg hany]
      by_cases hall : strLower logic = "all"
      · simp only [if_pos hall, List.all_eq_true, id, ne_eq]
        exact ⟨fun h => ⟨hemp, h⟩, fun h => h.2⟩
      · simp only [if_neg hall]
        by_cases hnof : strLower logic = "n-of"
        · simp only [if_pos hnof]
          cases n with
          | none => simp
          | some k =>
            by_cases hk : k ≤ 0
            · simp only [if_pos hk, Bool.false_eq_true, false_iff]
              rintro ⟨k', hk', hk'pos, _⟩
              cases Option.some.inj hk'
              omega
            · simp only [if_neg hk, ge_iff_le, decide_eq_true_eq]
              constructor
              · intro h; exact ⟨k, rfl, by omega, h⟩
              · rintro ⟨k', hk', _, hle⟩
                cases Option.some.inj hk'
                exact hle
        · simp [hall, hnof]

/-- C10: the logic combinator is case-insensitive in the policy string —
`_apply_rule_logic(s, results, n)` equals `_apply_rule_logic(s.lower(), results, n)`
for every policy string `s`. -/
theorem apply_rule_logic_case_insensitive :
    ∀ (logic : String) (results : List Bool) (n : Option Int),
      applyRuleLogic logic results n = applyRuleLogic (strLower logic) results n := by
  intro logic results n
  unfold applyRuleLogic
  rw [strLower_idem]

/-! ## Helper lemmas about `applyRuleLogic` -/

theorem applyRuleLogic_nil (logic : String) (n : Option Int) :
    applyRuleLogic logic [] n = false := by
  simp [applyRuleLogic]

theorem applyRuleLogic_single_false (logic : String) (n : Option Int) :
    applyRuleLogic logic [false] n = false := by
  unfold applyRuleLogic
  have h1 : ([false] : List Bool) ≠ [] := by simp
  simp only [if_neg h1]
  by_cases hany : strLower logic = "any"
  · simp [hany]
  · simp only [if_neg hany]
    by_cases hall : strLower logic = "all"
    · simp [hall]
    · simp only [if_neg hall]
      by_cases hnof : strLower logic = "n-of"
      · simp only [if_pos hnof]
        cases n with
        | none => rfl
        | some k =>
          by_cases hk : k ≤ 0
          · simp [hk]
          · simp only [if_neg hk, ge_iff_le, decide_eq_false_iff_not, not_le]
            have : ([false] : List Bool).countP id = 0 := by decide
            rw [this]
            omega
      · simp [hnof]

/-- C8: a rule with no condition groups and no legacy standalone conditions
evaluates to `False` for every condition oracle and every rule-level logic
setting, both before and after `__post_init__` normalization, and the
evaluator returns the boolean rather than raising. -/
theorem empty_rule_evaluates_false :
    ∀ (evalC : Condition → Bool) (r : Rule),
      r.condition_groups = [] →
      r.conditions = none ∨ r.conditions = some [] →
      evaluateRule evalC r = false ∧
        evaluateRule evalC (rulePostInit r) = false := by
  intro evalC r hg hc
  rcases hc with hc | hc
  · have hpost : rulePostInit r = r := by
      simp [rulePostInit, hc]
    rw [hpost]
    constructor <;> simp [evaluateRule, hg, hc]
  · constructor
    · simp [evaluateRule, hg, hc]
    · simp [rulePostInit, hc, hg, evaluateRule, applyRuleLogic_nil,
        applyRuleLogic_single_false]

/-- Witness for C8 at a concrete empty rule and oracle. -/
theorem empty_rule_evaluates_false_witness :
    evaluateRule (fun _ => true) emptyRule = false ∧
      evaluateRule (fun _ => true) (rulePostInit emptyRule) = false :=
  empty_rule_evaluates_false (fun _ => true) emptyRule rfl (Or.inl rfl)

/-- C9: `start_monitoring` returns `True` exactly when monitoring is not
already running and the rule list is nonempty; a `False` return leaves the
state unchanged and spawns no worker; `stop_monitoring` returns `True` exactly
when monitoring was running, never spawns anything, and always leaves the
monitoring flag cleared. Both report failure as booleans, never as
exceptions. -/
theorem start_stop_report_booleans :
    ∀ m : MonitorCtl,
      ((startMonitoring m).1 = true ↔ m.is_monitoring = false ∧ m.rules ≠ []) ∧
      (startMonitoring m).2.worker_spawns =
        m.worker_spawns + (if (startMonitoring m).1 then 1 else 0) ∧
      (startMonitoring m).2.is_monitoring =
        ((startMonitoring m).1 || m.is_monitoring) ∧
      ((stopMonitoring m).1 = true ↔ m.is_monitoring = true) ∧
      (stopMonitoring m).2.is_monitoring = false ∧
      (stopMonitoring m).2.worker_spawns = m.worker_spawns := by
  intro m
  unfold startMonitoring stopMonitoring
  by_cases hrun : m.is_monitoring
  · simp [hrun]
  · by_cases hrules : m.rules = []
    · simp [hrun, hrules]
    · simp [hrun, hrules]

/-- C7: `evaluate_condition` never propagates an exception: whenever the
dispatched detector (or the dispatch itself, for an unknown condition type)
raises, the result is `False`; in particular the `ValueError` raised by
`detect_color` for a color condition whose value is not an RGB triple is
downgraded to `False`. -/
theorem evaluate_condition_never_raises :
    ∀ (detectC detectT : Condition → Except String Bool) (c : Condition),
      (∀ e, dispatchCondition detectC detectT c = .error e →
        evaluateCondition detectC detectT c = false) ∧
      (c.type ≠ "color" → c.type ≠ "text" →
        evaluateCondition detectC detectT c = false) ∧
      (∀ img, c.type = "color" → (∀ r g b, c.value ≠ .rgb r g b) →
        evaluateCondition (detectColor img) detectT c = false) := by
  intro detectC detectT c
  refine ⟨?_, ?_, ?_⟩
  · intro e he
    simp [evaluateCondition, he]
  · intro hc ht
    simp [evaluateCondition, dispatchCondition, hc, ht]
  · intro img hc hshape
    cases hval : c.value with
    | rgb r g b => exact absurd hval (hshape r g b)
    | str s =>
      simp [evaluateCondition, dispatchCondition, hc, detectColor, hval]

/-- Witness for C7: a failing detector, an unknown condition type, and a
wrongly shaped color value all yield `False`. -/
theorem evaluate_condition_never_raises_witness :
    evaluateCondition alwaysErr alwaysErr condBadShape = false ∧
      evaluateCondition alwaysErr alwaysErr condUnknownType = false ∧
      evaluateCondition (detectColor []) alwaysErr condBadShape = false := by
  refine ⟨?_, ?_, ?_⟩
  · exact (evaluate_condition_never_raises alwaysErr alwaysErr condBadShape).1
      "CaptureError" rfl
  · exact (evaluate_condition_never_raises alwaysErr alwaysErr
      condUnknownType).2.1 (by decide) (by decide)
  · exact (evaluate_condition_never_raises (detectColor []) alwaysErr
      condBadShape).2.2 [] rfl
      (fun r g b h => by simp [condBadShape] at h)

/-- C2 (code-bug evidence): after `__post_init__`, a legacy rule keeps its
flat `conditions` list in addition to the synthesized "Legacy Group", so
`evaluate_rule` counts each legacy condition twice: once inside the implicit
group and once as a standalone result. With conditions evaluating
`[True, False]` under legacy logic `'all'` and rule logic `'any'`, the code
verdicts `True`, whereas the single-implicit-group evaluation the spec
describes verdicts `False`. -/
theorem legacy_rule_double_counts_conditions :
    evaluateRule evalAB (rulePostInit legacyRuleAllAB) = true ∧
      evaluateRule evalAB (rulePostInit groupedRuleAllAB) = false ∧
      evalAB condA = true ∧ evalAB condB = false := by
  refine ⟨?_, ?_, by decide, by decide⟩
  · decide
  · decide

/-! ## Color similarity semantics (C3, C4) -/

/-- The exact-real reading of the source's Euclidean test: for integer channel
differences, `math.sqrt(a²+b²+c²) ≤ 1.5·t` holds iff `t` is nonnegative and
`4·(a²+b²+c²) ≤ 9·t²`. -/
theorem sqrt_sum_sq_le_mul_three_halves_iff (a b c t : Int) :
    Real.sqrt ((a : ℝ) ^ 2 + (b : ℝ) ^ 2 + (c : ℝ) ^ 2) ≤ 1.5 * (t : ℝ) ↔
      0 ≤ t ∧ 4 * (a ^ 2 + b ^ 2 + c ^ 2) ≤ 9 * t ^ 2 := by
  rw [Real.sqrt_le_iff]
  constructor
  · rintro ⟨h1, h2⟩
    have ht : (0 : ℝ) ≤ (t : ℝ) := by nlinarith
    refine ⟨by exact_mod_cast ht, ?_⟩
    have h4 : (4 : ℝ) * ((a : ℝ) ^ 2 + (b : ℝ) ^ 2 + (c : ℝ) ^ 2) ≤
        9 * (t : ℝ) ^ 2 := by nlinarith
    exact_mod_cast h4
  · rintro ⟨h1, h2⟩
    have h1' : (0 : ℝ) ≤ (t : ℝ) := by exact_mod_cast h1
    have h2' : (4 : ℝ) * ((a : ℝ) ^ 2 + (b : ℝ) ^ 2 + (c : ℝ) ^ 2) ≤
        9 * (t : ℝ) ^ 2 := by exact_mod_cast h2
    constructor
    · nlinarith
    · nlinarith

/-- Restatement of `_color_similar` in terms of the spec's two conditions: channel-wise
differences all within tolerance, or Euclidean distance within
`tolerance × 1.5`. -/
theorem colorSimilar_iff (c1 c2 : Int × Int × Int) (t : Int) :
    colorSimilar c1 c2 t = true ↔
      ((|c1.1 - c2.1| ≤ t ∧ |c1.2.1 - c2.2.1| ≤ t ∧ |c1.2.2 - c2.2.2| ≤ t) ∨
        Real.sqrt (((c1.1 - c2.1 : Int) : ℝ) ^ 2 + ((c1.2.1 - c2.2.1 : Int) : ℝ) ^ 2 +
          ((c1.2.2 - c2.2.2 : Int) : ℝ) ^ 2) ≤ 1.5 * (t : ℝ)) := by
  rw [sqrt_sum_sq_le_mul_three_halves_iff]
  unfold colorSimilar
  simp only [Bool.or_eq_true, Bool.and_eq_true, decide_eq_true_eq, sq_abs]
  tauto

/-- C4: point-mode color detection with the `Similar` or `Contains` comparator
(treated identically) matches iff all three per-channel absolute differences
are ≤ the tolerance, or the Euclidean RGB distance is ≤ tolerance × 1.5. -/
theorem color_similar_contains_semantics :
    ∀ (det tgt : Int × Int × Int) (t : Int),
      (detectColorPoint det tgt "similar" t = true ↔
        ((|det.1 - tgt.1| ≤ t ∧ |det.2.1 - tgt.2.1| ≤ t ∧ |det.2.2 - tgt.2.2| ≤ t) ∨
          Real.sqrt (((det.1 - tgt.1 : Int) : ℝ) ^ 2 + ((det.2.1 - tgt.2.1 : Int) : ℝ) ^ 2 +
            ((det.2.2 - tgt.2.2 : Int) : ℝ) ^ 2) ≤ 1.5 * (t : ℝ))) ∧
      (detectColorPoint det tgt "contains" t = true ↔
        ((|det.1 - tgt.1| ≤ t ∧ |det.2.1 - tgt.2.1| ≤ t ∧ |det.2.2 - tgt.2.2| ≤ t) ∨
          Real.sqrt (((det.1 - tgt.1 : Int) : ℝ) ^ 2 + ((det.2.1 - tgt.2.1 : Int) : ℝ) ^ 2 +
            ((det.2.2 - tgt.2.2 : Int) : ℝ) ^ 2) ≤ 1.5 * (t : ℝ))) := by
  intro det tgt t
  have h := colorSimilar_iff det tgt t
  constructor
  · simpa [detectColorPoint] using h
  · simpa [detectColorPoint] using h

/-- C3 counterexample: with the `Equals` comparator, the detected pixel
`(104, 100, 100)` matches target `(100, 100, 100)` although one channel
differs by 4 > 3 — the Euclidean escape (distance 4 ≤ 3 × 1.5 = 4.5) accepts
it, refuting "matches iff every per-channel difference is ≤ 3" and
"perturbing any single channel by more than 3 makes the match false". -/
theorem color_equals_exceeds_claimed_slack :
    detectColorPoint (104, 100, 100) (100, 100, 100) "equals" 0 = true ∧
      ¬(|(104 : Int) - 100| ≤ 3 ∧ |(100 : Int) - 100| ≤ 3 ∧
        |(100 : Int) - 100| ≤ 3) := by
  decide

/-- Helper: `_color_similar` is false when some channel difference exceeds the
tolerance and the (squared) Euclidean test also fails. -/
theorem colorSimilar_false_of_far (c1 c2 : Int × Int × Int) (t : Int)
    (heu : 9 * t ^ 2 <
      4 * ((c1.1 - c2.1) ^ 2 + (c1.2.1 - c2.2.1) ^ 2 + (c1.2.2 - c2.2.2) ^ 2))
    (hch : t < |c1.1 - c2.1| ∨ t < |c1.2.1 - c2.2.1| ∨ t < |c1.2.2 - c2.2.2|) :
    colorSimilar c1 c2 t = false := by
  unfold colorSimilar
  simp only [Bool.or_eq_false_iff, Bool.and_eq_false_iff,
    decide_eq_false_iff_not, not_le, sq_abs]
  constructor
  · rcases hch with h | h | h
    · exact Or.inl (Or.inl h)
    · exact Or.inl (Or.inr h)
    · exact Or.inr h
  · exact Or.inr heu

/-- C3 (amended): point-mode `Equals` matches iff every per-channel difference
is ≤ 3 **or** the Euclidean distance is ≤ 4.5 (= 3 × 1.5); a pixel exactly
equal to the target matches, and perturbing any single channel of an exactly
matching pixel by more than 4 makes the match false (a perturbation of 4 is
still accepted through the Euclidean escape). -/
theorem color_equals_tolerance_amended :
    ∀ (det tgt : Int × Int × Int) (tol : Int),
      (detectColorPoint det tgt "equals" tol = true ↔
        ((|det.1 - tgt.1| ≤ 3 ∧ |det.2.1 - tgt.2.1| ≤ 3 ∧ |det.2.2 - tgt.2.2| ≤ 3) ∨
          Real.sqrt (((det.1 - tgt.1 : Int) : ℝ) ^ 2 + ((det.2.1 - tgt.2.1 : Int) : ℝ) ^ 2 +
            ((det.2.2 - tgt.2.2 : Int) : ℝ) ^ 2) ≤ 4.5)) ∧
      detectColorPoint tgt tgt "equals" tol = true ∧
      (∀ d : Int, 4 < |d| →
        detectColorPoint (tgt.1 + d, tgt.2.1, tgt.2.2) tgt "equals" tol = false ∧
        detectColorPoint (tgt.1, tgt.2.1 + d, tgt.2.2) tgt "equals" tol = false ∧
        detectColorPoint (tgt.1, tgt.2.1, tgt.2.2 + d) tgt "equals" tol = false) := by
  intro det tgt tol
  have hdef : ∀ p : Int × Int × Int,
      detectColorPoint p tgt "equals" tol = colorSimilar p tgt 3 := by
    intro p; simp [detectColorPoint]
  refine ⟨?_, ?_, ?_⟩
  · rw [hdef det, colorSimilar_iff]
    norm_num
  · rw [hdef tgt]
    simp [colorSimilar]
  · intro d hd
    have hsq : 25 ≤ d ^ 2 := by
      rcases abs_cases d with ⟨he, _⟩ | ⟨he, _⟩ <;> nlinarith
    refine ⟨?_, ?_, ?_⟩ <;> rw [hdef] <;>
      apply colorSimilar_false_of_far <;>
        simp only [add_sub_cancel_left, sub_self, abs_zero]
    · nlinarith
    · left; omega
    · nlinarith
    · right; left; omega
    · nlinarith
    · right; right; omega

/-- Witness for C3 (amended) at a concrete pixel: exact equality matches, a
single-channel perturbation of 5 does not. -/
theorem color_equals_tolerance_amended_witness :
    detectColorPoint (10, 20, 30) (10, 20, 30) "equals" 0 = true ∧
      detectColorPoint (10 + 5, 20, 30) (10, 20, 30) "equals" 0 = false :=
  ⟨(color_equals_tolerance_amended (10, 20, 30) (10, 20, 30) 0).2.1,
    ((color_equals_tolerance_amended (10, 20, 30) (10, 20, 30) 0).2.2 5
      (by decide)).1⟩

/-! ## Monitor-loop temporal property (C6) -/

/-- Loop invariant: in every reachable state where the worker is about to call
`evaluate_rule`, the pending flag `is_processing_match` is clear. The flag is
only ever set by the worker itself right after a match (after which it breaks
out of the rule loop), and the only other writes clear it, so no interleaving
can set it between the for-loop guard and the `evaluate_rule` call. -/
theorem loop_evalAt_not_processing {numRules : Nat} {s : LoopState}
    (hreach : LoopReachable numRules s) :
    ∀ i, s.pc = .evalAt i → s.processing = false := by
  induction hreach with
  | init =>
    intro i h
    simp at h
  | step hr hs ih =>
    intro i hpc
    cases hs with
    | whileExit p => simp at hpc
    | whileEnter p => simp at hpc
    | pauseSleep m => simp at hpc
    | pauseRun m => simp at hpc
    | rulesDone i' m p h => simp at hpc
    | ruleBreak i' m p h1 h2 => simp at hpc
    | ruleEval i' h => rfl
    | evalFalse i' m p => simp at hpc
    | evalTrue i' m p => simp at hpc
    | matchedSetFlag i' m p => simp at hpc
    | callbackRet m p => simp at hpc
    | callbackRaise m p => simp at hpc
    | tick m p => simp at hpc
    | ctlResume pc m p => rfl
    | ctlStop pc m p => exact ih i hpc

/-- C6: in every reachable execution of the monitor loop's step relation, a
"condition evaluated while match-pending" event never occurs: every step
labelled as an `evaluate_rule` call starts from a state whose
`is_processing_match` flag is `False`, so once a match sets the pending flag,
no condition evaluation happens until `resume_monitoring()` (or the
callback-error recovery path) clears it. -/
theorem monitor_never_evaluates_while_match_pending :
    ∀ (numRules : Nat) (s : LoopState) (l : LoopLabel) (s' : LoopState),
      LoopReachable numRules s → LoopStep numRules s l s' →
      l = .evalRule → s.processing = false := by
  intro n s l s' hreach hstep hl
  subst hl
  cases hstep with
  | evalFalse i m p => exact loop_evalAt_not_processing hreach i rfl
  | evalTrue i m p => exact loop_evalAt_not_processing hreach i rfl

/-- Witness for C6: a concrete reachable `evaluate_rule` step (rule 0 of a
one-rule configuration, straight-line path from loop entry) starts with the
pending flag clear. -/
theorem monitor_never_evaluates_while_match_pending_witness :
    (⟨LoopPC.evalAt 0, true, false⟩ : LoopState).processing = false :=
  monitor_never_evaluates_while_match_pending 1
    ⟨LoopPC.evalAt 0, true, false⟩ .evalRule ⟨LoopPC.ruleAt 1, true, false⟩
    (LoopReachable.step
      (LoopReachable.step
        (LoopReachable.step LoopReachable.init (LoopStep.whileEnter false))
        (LoopStep.pauseRun true))
      (LoopStep.ruleEval 0 (by decide)))
    (LoopStep.evalFalse 0 true false) rfl

/-! ## `splitWs` / `joinWords` structure lemmas (for C5) -/

theorem splitWsAux_acc_ne_nil (l : List Char) :
    ∀ acc : List Char, acc ≠ [] → splitWsAux l acc ≠ [] := by
  induction l with
  | nil =>
    intro acc hacc
    unfold splitWsAux
    simp [hacc]
  | cons c rest ih =>
    intro acc hacc
    unfold splitWsAux
    by_cases hws : isPyWs c = true
    · rw [if_pos hws, if_neg hacc]
      simp
    · rw [if_neg hws]
      exact ih (c :: acc) (by simp)

theorem splitWsAux_words (l : List Char) :
    ∀ acc : List Char, (∀ c ∈ acc, isPyWs c = false) →
      ∀ w ∈ splitWsAux l acc, w ≠ [] ∧ ∀ c ∈ w, isPyWs c = false := by
  induction l with
  | nil =>
    intro acc hacc w hw
    unfold splitWsAux at hw
    by_cases h : acc = []
    · simp [h] at hw
    · rw [if_neg h] at hw
      simp only [List.mem_singleton] at hw
      subst hw
      refine ⟨by simpa using h, ?_⟩
      intro c hc
      exact hacc c (List.mem_reverse.mp hc)
  | cons c rest ih =>
    intro acc hacc w hw
    unfold splitWsAux at hw
    by_cases hws : isPyWs c = true
    · rw [if_pos hws] at hw
      by_cases h : acc = []
      · rw [if_pos h] at hw
        exact ih [] (by simp) w hw
      · rw [if_neg h] at hw
        rcases List.mem_cons.mp hw with hw | hw
        · subst hw
          refine ⟨by simpa using h, ?_⟩
          intro c' hc'
          exact hacc c' (List.mem_reverse.mp hc')
        · exact ih [] (by simp) w hw
    · rw [if_neg hws] at hw
      refine ih (c :: acc) ?_ w hw
      intro c' hc'
      rcases List.mem_cons.mp hc' with h | h
      · subst h; simpa using hws
      · exact hacc c' h

theorem splitWsAux_ne_nil_of_mem (l : List Char) :
    ∀ acc : List Char, (∃ c ∈ l, isPyWs c = false) → splitWsAux l acc ≠ [] := by
  induction l with
  | nil =>
    rintro acc ⟨c, hc, -⟩
    cases hc
  | cons c rest ih =>
    rintro acc ⟨c', hc', hnws⟩
    unfold splitWsAux
    by_cases hws : isPyWs c = true
    · have hc'rest : c' ∈ rest := by
        rcases List.mem_cons.mp hc' with h | h
        · subst h; rw [hws] at hnws; cases hnws
        · exact h
      rw [if_pos hws]
      by_cases h : acc = []
      · rw [if_pos h]
        exact ih [] ⟨c', hc'rest, hnws⟩
      · rw [if_neg h]
        simp
    · rw [if_neg hws]
      exact splitWsAux_acc_ne_nil rest (c :: acc) (by simp)

/-- Every word produced by `splitWs` is nonempty and whitespace-free. -/
theorem splitWs_words (l : List Char) :
    ∀ w ∈ splitWs l, w ≠ [] ∧ ∀ c ∈ w, isPyWs c = false :=
  splitWsAux_words l [] (by simp)

/-- A list containing a non-whitespace character splits into at least one
word. -/
theorem splitWs_ne_nil_of_mem {l : List Char}
    (h : ∃ c ∈ l, isPyWs c = false) : splitWs l ≠ [] :=
  splitWsAux_ne_nil_of_mem l [] h

theorem joinWords_mem_head {w : List Char} {ws : List (List Char)} {c : Char}
    (hc : c ∈ w) : c ∈ joinWords (w :: ws) := by
  cases ws with
  | nil => simpa [joinWords] using hc
  | cons w' ws' =>
    simp only [joinWords, List.mem_append]
    exact Or.inl hc

theorem splitWs_normClean_ne_nil {s : String} (h : normClean s ≠ []) :
    splitWs (normClean s) ≠ [] := by
  unfold normClean at h ⊢
  cases hws : splitWs (s.data.map charLower) with
  | nil => rw [hws] at h; simp [joinWords] at h
  | cons w rest =>
    have hwmem : w ∈ splitWs (s.data.map charLower) := by
      rw [hws]; exact List.mem_cons_self _ _
    obtain ⟨hwne, hwnws⟩ := splitWs_words (s.data.map charLower) w hwmem
    obtain ⟨c0, hc0⟩ := List.exists_mem_of_ne_nil w hwne
    exact splitWs_ne_nil_of_mem
      ⟨c0, joinWords_mem_head hc0, hwnws c0 hc0⟩

theorem wordList_normClean_ne_nil {s : String} (h : normClean s ≠ []) :
    wordList (normClean s) ≠ [] := by
  unfold wordList
  rw [ne_eq, List.dedup_eq_nil]
  exact splitWs_normClean_ne_nil h

/-! ## Similarity scores as set-cardinality ratios (for C5) -/

theorem wordSimilarity_wordList_eq (c1 c2 : List Char) (h1 : splitWs c1 ≠ []) :
    wordSimilarity (wordList c1) (wordList c2) =
      (((splitWs c1).toFinset ∩ (splitWs c2).toFinset).card : ℚ) /
        (((splitWs c1).toFinset ∪ (splitWs c2).toFinset).card : ℚ) := by
  simp only [wordSimilarity, wordList]
  have hinter : ((splitWs c1).dedup.filter
      (fun w => decide (w ∈ (splitWs c2).dedup))).length =
      ((splitWs c1).toFinset ∩ (splitWs c2).toFinset).card := by
    have hnd : ((splitWs c1).dedup.filter
        (fun w => decide (w ∈ (splitWs c2).dedup))).Nodup :=
      (List.nodup_dedup _).filter _
    rw [← List.toFinset_card_of_nodup hnd]
    congr 1
    ext a
    simp [List.mem_filter, List.mem_dedup, Finset.mem_inter]
  have hunion : ((splitWs c1).dedup ++ (splitWs c2).dedup).dedup.length =
      ((splitWs c1).toFinset ∪ (splitWs c2).toFinset).card := by
    rw [← List.toFinset_card_of_nodup (List.nodup_dedup _)]
    congr 1
    ext a
    simp [List.mem_dedup, List.mem_append, Finset.mem_union]
  rw [hinter, hunion]
  have hne : ((splitWs c1).toFinset ∪ (splitWs c2).toFinset).card ≠ 0 := by
    obtain ⟨a, ha⟩ := List.exists_mem_of_ne_nil _ h1
    exact Finset.card_ne_zero_of_mem
      (Finset.mem_union_left _ (List.mem_toFinset.mpr ha))
  rw [if_neg hne]

theorem charSimilarity_eq_of_ne_nil (c1 c2 : List Char) (h : c1 ≠ []) :
    charSimilarity c1 c2 =
      ((c1.filter (fun ch => decide (ch ∈ c2))).length : ℚ) /
        (max c1.length c2.length : ℚ) := by
  simp only [charSimilarity]
  have hlen : c1.length ≠ 0 := fun hh => h (List.length_eq_zero.mp hh)
  rw [if_neg (fun hmax =>
    hlen (Nat.eq_zero_of_le_zero ((Nat.le_max_left _ _).trans hmax.le))),
    Nat.cast_max]

/-- C5 counterexample: the empty string normalizes to the empty string, which
is contained (as a substring) in the normalization of `"a"`, yet
`_text_similar("", "a")` returns `False` because of the up-front emptiness
guard — refuting "containment in either direction short-circuits to true" for
every pair of strings. -/
theorem text_similar_empty_containment_counterexample :
    textSimilar "" "a" (7/10) = false ∧ normClean "" <:+: normClean "a" := by
  constructor
  · rfl
  · decide

/-- C5 (amended): `_text_similar` returns `False` whenever either input is
empty or normalizes to the empty string; otherwise it returns `True` when
either normalized string contains the other (equality included), and otherwise
returns `True` iff `max(word-Jaccard-similarity, character-overlap-ratio)` is
at least the threshold (default 0.7, matching the Python default argument). -/
theorem text_similar_semantics :
    ∀ (t1 t2 : String) (thr : ℚ),
      textSimilar t1 t2 thr = true ↔
        (normClean t1 ≠ [] ∧ normClean t2 ≠ [] ∧
          (normClean t1 <:+: normClean t2 ∨ normClean t2 <:+: normClean t1 ∨
            thr ≤ max
              ((((splitWs (normClean t1)).toFinset ∩
                  (splitWs (normClean t2)).toFinset).card : ℚ) /
                (((splitWs (normClean t1)).toFinset ∪
                  (splitWs (normClean t2)).toFinset).card : ℚ))
              ((((normClean t1).filter
                  (fun ch => decide (ch ∈ normClean t2))).length : ℚ) /
                (max (normClean t1).length (normClean t2).length : ℚ)))) := by
  intro t1 t2 thr
  simp only [textSimilar]
  by_cases h1 : t1 = "" ∨ t2 = ""
  · rw [if_pos h1]
    simp only [Bool.false_eq_true, false_iff]
    rintro ⟨hc1, hc2, -⟩
    rcases h1 with h | h <;> subst h
    · exact hc1 rfl
    · exact hc2 rfl
  · rw [if_neg h1]
    by_cases hc : normClean t1 = [] ∨ normClean t2 = []
    · rw [if_pos hc]
      simp only [Bool.false_eq_true, false_iff]
      rintro ⟨hc1, hc2, -⟩
      tauto
    · rw [if_neg hc]
      push_neg at hc
      obtain ⟨hc1, hc2⟩ := hc
      by_cases heq : normClean t1 = normClean t2
      · rw [if_pos heq]
        exact ⟨fun _ => ⟨hc1, hc2,
          Or.inl (by rw [heq])⟩, fun _ => rfl⟩
      · rw [if_neg heq]
        by_cases hinf : normClean t1 <:+: normClean t2 ∨
            normClean t2 <:+: normClean t1
        · rw [if_pos hinf]
          refine ⟨fun _ => ⟨hc1, hc2, ?_⟩, fun _ => rfl⟩
          rcases hinf with h | h
          · exact Or.inl h
          · exact Or.inr (Or.inl h)
        · rw [if_neg hinf]
          have hw1 := wordList_normClean_ne_nil hc1
          have hw2 := wordList_normClean_ne_nil hc2
          rw [if_neg (show ¬(wordList (normClean t1) = [] ∨
            wordList (normClean t2) = []) by tauto)]
          rw [decide_eq_true_eq,
            wordSimilarity_wordList_eq _ _ (splitWs_normClean_ne_nil hc1),
            charSimilarity_eq_of_ne_nil _ _ hc1]
          constructor
          · intro h
            exact ⟨hc1, hc2, Or.inr (Or.inr h)⟩
          · rintro ⟨-, -, h | h | h⟩
            · exact absurd (Or.inl h) hinf
            · exact absurd (Or.inr h) hinf
            · exact h

end AutoClicker
